import Mathlib

/-!
Verification of the user-account service of the Price-Tracking-App backend.

The repository ships the HTTP-level tests (`tests/route_tests/test_user_api.py`)
and the configuration module (`app/config.py`).  The user service and API layer
themselves are not part of the shipped sources, so their data model and
operations are modelled from the specification (sections 3, 4 and 6 of the
spec); the configuration module is embedded directly from `app/config.py`.
-/

namespace UserService

/-- Modelled from the spec: the persisted `User` entity of section 3
(DATA MODEL): server-generated `id`, unique `email`, and a `password_hash`
derived from the plaintext password.  The user-service source is not under
`src/`, so the record is taken from the spec's words. -/
structure User where
  id : Nat
  email : String
  password_hash : String
deriving DecidableEq

/-- Modelled from the spec: the Credential Store (section 4.1) persists user
records; `nextId` models the server-side generator of fresh ids. -/
structure Store where
  users : List User
  nextId : Nat
deriving DecidableEq

/-- Modelled from the spec: the error taxonomy of section 7. -/
inductive ServiceError where
  | emailAlreadyRegistered
  | userNotFound
  | invalidCredentials
deriving DecidableEq

/-- Modelled from the spec: the output-facing representation `UserOut`
exposes only `id` and `email` (section 3, output-shape invariant). -/
structure UserOut where
  id : Nat
  email : String
deriving DecidableEq

/-- Modelled from the spec: a deterministic model of the one-way password
hashing function (section 3); injective on plaintexts, and distinct from any
plaintext, which is all the claims need. -/
def hashPassword (p : String) : String := "hashed:" ++ p

/-- Modelled from the spec: verification of a plaintext against a stored hash. -/
def verifyPassword (p h : String) : Bool := hashPassword p == h

/-- Projection of a stored user to its output shape. -/
def toOut (u : User) : UserOut := ⟨u.id, u.email⟩

def findByEmail (s : Store) (e : String) : Option User :=
  s.users.find? (fun u => u.email == e)

def findById (s : Store) (i : Nat) : Option User :=
  s.users.find? (fun u => u.id == i)

/-- Modelled from the spec: Create (section 4.2): validates the email is not
already registered, otherwise hashes the password, inserts the record and
returns the created user with the generated id. -/
def createUser (s : Store) (email password : String) :
    Except ServiceError UserOut × Store :=
  match findByEmail s email with
  | some _ => (Except.error ServiceError.emailAlreadyRegistered, s)
  | none =>
    let u : User := ⟨s.nextId, email, hashPassword password⟩
    (Except.ok (toOut u), ⟨s.users ++ [u], s.nextId + 1⟩)

/-- Modelled from the spec: Get (section 4.2). -/
def getUser (s : Store) (i : Nat) : Except ServiceError UserOut :=
  match findById s i with
  | some u => Except.ok (toOut u)
  | none => Except.error ServiceError.userNotFound

/-- Modelled from the spec: List (section 4.2): all users, output shape. -/
def listUsers (s : Store) : List UserOut := s.users.map toOut

/-- Modelled from the spec: applying a partial update `{email?, password?}`
to a user record, re-hashing the password if provided (section 4.2). -/
def applyUpdate (u : User) (newEmail newPassword : Option String) : User :=
  { u with
    email := newEmail.getD u.email,
    password_hash :=
      match newPassword with
      | some p => hashPassword p
      | none => u.password_hash }

/-- Modelled from the spec: does the proposed email collide with another user
(a user with a different id)? -/
def emailCollides (s : Store) (i : Nat) (e : String) : Bool :=
  s.users.any (fun v => v.id != i && v.email == e)

/-- Modelled from the spec: Update (section 4.2): fails `UserNotFound` if the
id is absent; if the email changes and collides with another user, fails
`EmailAlreadyRegistered`; otherwise applies the changes. -/
def updateUser (s : Store) (i : Nat) (newEmail newPassword : Option String) :
    Except ServiceError UserOut × Store :=
  match findById s i with
  | none => (Except.error ServiceError.userNotFound, s)
  | some u =>
    if (match newEmail with
        | some e => e != u.email && emailCollides s i e
        | none => false) then
      (Except.error ServiceError.emailAlreadyRegistered, s)
    else
      (Except.ok (toOut (applyUpdate u newEmail newPassword)),
        ⟨s.users.map (fun v =>
            if v.id == i then applyUpdate v newEmail newPassword else v),
          s.nextId⟩)

/-- Modelled from the spec: Delete (section 4.2): fails `UserNotFound` if the
id is absent, otherwise removes the record (hard delete). -/
def deleteUser (s : Store) (i : Nat) : Except ServiceError Unit × Store :=
  match findById s i with
  | none => (Except.error ServiceError.userNotFound, s)
  | some _ => (Except.ok (), ⟨s.users.filter (fun v => v.id != i), s.nextId⟩)

/-- Modelled from the spec: Authenticate (section 4.2): looks up the user by
email; fails `InvalidCredentials` if absent or if the password does not match
the stored hash. -/
def loginUser (s : Store) (email password : String) :
    Except ServiceError UserOut :=
  match findByEmail s email with
  | none => Except.error ServiceError.invalidCredentials
  | some u =>
    if verifyPassword password u.password_hash then Except.ok (toOut u)
    else Except.error ServiceError.invalidCredentials

/-- Modelled from the spec: JSON response bodies of the API layer
(section 4.3); the `detail` and `message` constructors carry the literal
detail strings. -/
inductive Body where
  | user (u : UserOut)
  | users (l : List UserOut)
  | detail (s : String)
  | message (s : String)
deriving DecidableEq

/-- Modelled from the spec: an HTTP response of the API layer. -/
structure HttpResponse where
  status : Nat
  body : Body
deriving DecidableEq

/-- Modelled from the spec: rendering of each service error as an HTTP
status and literal body (section 4.3 table). -/
def renderError : ServiceError → HttpResponse
  | ServiceError.emailAlreadyRegistered => ⟨400, Body.detail "Email already registered"⟩
  | ServiceError.userNotFound => ⟨404, Body.detail "There is no user with this ID"⟩
  | ServiceError.invalidCredentials => ⟨400, Body.detail "Invalid credentials"⟩

/-- Modelled from the spec: `POST /users/create`. -/
def apiCreate (s : Store) (email password : String) : HttpResponse × Store :=
  match createUser s email password with
  | (Except.ok u, s2) => (⟨201, Body.user u⟩, s2)
  | (Except.error e, s2) => (renderError e, s2)

/-- Modelled from the spec: `GET /users/`. -/
def apiList (s : Store) : HttpResponse := ⟨200, Body.users (listUsers s)⟩

/-- Modelled from the spec: `GET /users/\x7bid\x7d`. -/
def apiGet (s : Store) (i : Nat) : HttpResponse :=
  match getUser s i with
  | Except.ok u => ⟨200, Body.user u⟩
  | Except.error e => renderError e

/-- Modelled from the spec: `PUT /users/\x7bid\x7d`. -/
def apiUpdate (s : Store) (i : Nat) (newEmail newPassword : Option String) :
    HttpResponse × Store :=
  match updateUser s i newEmail newPassword with
  | (Except.ok u, s2) => (⟨200, Body.user u⟩, s2)
  | (Except.error e, s2) => (renderError e, s2)

/-- Modelled from the spec: `DELETE /users/\x7bid\x7d`. -/
def apiDelete (s : Store) (i : Nat) : HttpResponse × Store :=
  match deleteUser s i with
  | (Except.ok _, s2) => (⟨200, Body.message "User deleted successfully"⟩, s2)
  | (Except.error e, s2) => (renderError e, s2)

/-- Modelled from the spec: `POST /users/login`. -/
def apiLogin (s : Store) (email password : String) : HttpResponse :=
  match loginUser s email password with
  | Except.ok u => ⟨200, Body.user u⟩
  | Except.error e => renderError e

/-- Dispatch: a successful create appends the fresh user to the store. -/
theorem createUser_fresh {s : Store} {e p : String}
    (h : findByEmail s e = none) :
    createUser s e p =
      (Except.ok ⟨s.nextId, e⟩,
        ⟨s.users ++ [⟨s.nextId, e, hashPassword p⟩], s.nextId + 1⟩) := by
  simp [createUser, h, toOut]

/-- Dispatch: create on an already-present email is a conflict, store kept. -/
theorem createUser_conflict {s : Store} {e p : String} {u : User}
    (h : findByEmail s e = some u) :
    createUser s e p = (Except.error ServiceError.emailAlreadyRegistered, s) := by
  simp [createUser, h]

/-- After a successful create with email `e`, a lookup of `e` succeeds. -/
theorem findByEmail_after_create {s : Store} {e p : String}
    (h : findByEmail s e = none) :
    findByEmail (createUser s e p).2 e = some ⟨s.nextId, e, hashPassword p⟩ := by
  unfold findByEmail at h
  rw [createUser_fresh h]
  unfold findByEmail
  simp only [List.find?_append, h, Option.none_or]
  simp [List.find?]

/-- C1.  For every email, if a create-user request with that email succeeds
(201), then a second create-user request with the same email fails with
status 400 and the literal duplicate-email body, and the store is unchanged
by the second request (no second user is created). -/
theorem create_duplicate_email_rejected (s : Store) (e p1 p2 : String)
    (h : (apiCreate s e p1).1.status = 201) :
    (apiCreate (apiCreate s e p1).2 e p2).1 =
      ⟨400, Body.detail "Email already registered"⟩ ∧
    (apiCreate (apiCreate s e p1).2 e p2).2 = (apiCreate s e p1).2 := by
  cases hf : findByEmail s e with
  | some u =>
    exfalso
    simp [apiCreate, createUser_conflict hf, renderError] at h
  | none =>
    have hfind : findByEmail (apiCreate s e p1).2 e =
        some ⟨s.nextId, e, hashPassword p1⟩ := by
      have hstate : (apiCreate s e p1).2 = (createUser s e p1).2 := by
        simp [apiCreate, createUser_fresh hf]
      rw [hstate]; exact findByEmail_after_create hf
    generalize (apiCreate s e p1).2 = s2 at hfind ⊢
    have hc := createUser_conflict (p := p2) hfind
    constructor <;> simp [apiCreate, hc, renderError]

/-- Witness for C1 at a concrete input: creating `a@x.com` in the empty store
succeeds, and the duplicate create is rejected with the literal body while
the store is unchanged. -/
theorem create_duplicate_email_rejected_witness :
    (apiCreate ⟨[], 0⟩ "a@x.com" "p1").1.status = 201 ∧
    ((apiCreate (apiCreate ⟨[], 0⟩ "a@x.com" "p1").2 "a@x.com" "p2").1 =
      ⟨400, Body.detail "Email already registered"⟩ ∧
    (apiCreate (apiCreate ⟨[], 0⟩ "a@x.com" "p1").2 "a@x.com" "p2").2 =
      (apiCreate ⟨[], 0⟩ "a@x.com" "p1").2) :=
  ⟨by decide, create_duplicate_email_rejected ⟨[], 0⟩ "a@x.com" "p1" "p2" (by decide)⟩

/-- Distinctness of two user records: different emails and different ids. -/
abbrev Distinct (a b : User) : Prop := a.email ≠ b.email ∧ a.id ≠ b.id

/-- Well-formedness of a store: pairwise distinct emails and ids, and every
stored id strictly below the id generator. -/
def WF (s : Store) : Prop :=
  s.users.Pairwise Distinct ∧ ∀ u ∈ s.users, u.id < s.nextId

/-- Reachable store states: those produced from the empty store by the
state-changing API operations. -/
inductive Reachable : Store → Prop where
  | empty : Reachable ⟨[], 0⟩
  | create (s : Store) (e p : String) : Reachable s → Reachable (apiCreate s e p).2
  | update (s : Store) (i : Nat) (ne np : Option String) :
      Reachable s → Reachable (apiUpdate s i ne np).2
  | delete (s : Store) (i : Nat) : Reachable s → Reachable (apiDelete s i).2

theorem distinct_symm : Symmetric Distinct :=
  fun _ _ h => ⟨h.1.symm, h.2.symm⟩

/-- In a pairwise-distinct store, an id determines the record. -/
theorem eq_of_mem_of_id_eq {l : List User} (hp : l.Pairwise Distinct)
    {a b : User} (ha : a ∈ l) (hb : b ∈ l) (hid : a.id = b.id) : a = b := by
  by_contra hne
  exact (hp.forall distinct_symm ha hb hne).2 hid

theorem applyUpdate_id (v : User) (ne np : Option String) :
    (applyUpdate v ne np).id = v.id := rfl

/-- Create preserves well-formedness. -/
theorem wf_create (s : Store) (e p : String) (h : WF s) :
    WF (apiCreate s e p).2 := by
  cases hf : findByEmail s e with
  | some u => simpa [apiCreate, createUser_conflict hf] using h
  | none =>
    have hfresh : ∀ x ∈ s.users, ¬(x.email = e) := by
      simpa [findByEmail, List.find?_eq_none] using hf
    have hstate : (apiCreate s e p).2 =
        ⟨s.users ++ [⟨s.nextId, e, hashPassword p⟩], s.nextId + 1⟩ := by
      simp [apiCreate, createUser_fresh hf]
    rw [hstate]
    constructor
    · refine List.pairwise_append.mpr ⟨h.1, by simp, ?_⟩
      intro a ha b hb
      have hb2 : b = ⟨s.nextId, e, hashPassword p⟩ := by simpa using hb
      subst hb2
      exact ⟨hfresh a ha, Nat.ne_of_lt (h.2 a ha)⟩
    · intro u hu
      rcases List.mem_append.mp hu with h1 | h2
      · exact Nat.lt_succ_of_lt (h.2 u h1)
      · have h3 : u = ⟨s.nextId, e, hashPassword p⟩ := by simpa using h2
        subst h3
        exact Nat.lt_succ_self _

/-- Update preserves well-formedness. -/
theorem wf_update (s : Store) (i : Nat) (ne np : Option String) (h : WF s) :
    WF (apiUpdate s i ne np).2 := by
  cases hf : findById s i with
  | none => simpa [apiUpdate, updateUser, hf] using h
  | some u =>
    have hu_mem : u ∈ s.users := List.mem_of_find?_eq_some hf
    have hu_id : u.id = i := by
      have := List.find?_some hf
      simpa using this
    cases hb : (match ne with
        | some e => e != u.email && emailCollides s i e
        | none => false) with
    | true => simpa [apiUpdate, updateUser, hf, hb] using h
    | false =>
      have hstate : (apiUpdate s i ne np).2 =
          ⟨s.users.map (fun v =>
              if v.id == i then applyUpdate v ne np else v), s.nextId⟩ := by
        simp [apiUpdate, updateUser, hf, hb]
      rw [hstate]
      have cond_id : ∀ v : User,
          ((if v.id == i then applyUpdate v ne np else v) : User).id = v.id := by
        intro v
        by_cases hv : v.id = i <;> simp [hv, applyUpdate_id]
      constructor
      · rw [List.pairwise_map]
        refine List.Pairwise.imp_of_mem ?_ h.1
        intro a b ha hbm hd
        have hid2 : ((if a.id == i then applyUpdate a ne np else a) : User).id ≠
            ((if b.id == i then applyUpdate b ne np else b) : User).id := by
          rw [cond_id a, cond_id b]; exact hd.2
        refine ⟨?_, hid2⟩
        cases ne with
        | none =>
          have ea : ((if a.id == i then applyUpdate a none np else a) : User).email
              = a.email := by
            by_cases hv : a.id = i <;> simp [hv, applyUpdate]
          have eb : ((if b.id == i then applyUpdate b none np else b) : User).email
              = b.email := by
            by_cases hv : b.id = i <;> simp [hv, applyUpdate]
          rw [ea, eb]; exact hd.1
        | some e =>
          have hcases : e = u.email ∨ emailCollides s i e = false := by
            cases hee : (e != u.email) with
            | false =>
              left
              simpa using hee
            | true =>
              right
              simpa [hee] using hb
          have hncoll : emailCollides s i e = false →
              ∀ v ∈ s.users, v.id ≠ i → v.email ≠ e := by
            intro hc
            simpa [emailCollides] using hc
          by_cases hai : a.id = i <;> by_cases hbi : b.id = i
          · exact absurd (hai.trans hbi.symm) hd.2
          · simp only [hai, beq_self_eq_true, if_true, hbi]
            have hbne : (b.id == i) = false := by simp [hbi]
            rw [hbne]
            simp only [Bool.false_eq_true, if_false]
            show (applyUpdate a (some e) np).email ≠ b.email
            have hae : (applyUpdate a (some e) np).email = e := rfl
            rw [hae]
            rcases hcases with heu | hc
            · have hau : a = u := eq_of_mem_of_id_eq h.1 ha hu_mem (by rw [hai, hu_id])
              rw [heu, ← hau]
              exact hd.1
            · exact fun hcontra => hncoll hc b hbm hbi hcontra.symm
          · simp only [hbi, beq_self_eq_true, if_true]
            have hane : (a.id == i) = false := by simp [hai]
            rw [hane]
            simp only [Bool.false_eq_true, if_false]
            show a.email ≠ (applyUpdate b (some e) np).email
            have hbe : (applyUpdate b (some e) np).email = e := rfl
            rw [hbe]
            rcases hcases with heu | hc
            · have hbu : b = u := eq_of_mem_of_id_eq h.1 hbm hu_mem (by rw [hbi, hu_id])
              rw [heu, ← hbu]
              exact hd.1
            · exact hncoll hc a ha hai
          · have hane : (a.id == i) = false := by simp [hai]
            have hbne : (b.id == i) = false := by simp [hbi]
            rw [hane, hbne]
            simpa using hd.1
      · intro w hw
        rcases List.mem_map.mp hw with ⟨v, hv, hvw⟩
        rw [← hvw, cond_id v]
        exact h.2 v hv

/-- Delete preserves well-formedness. -/
theorem wf_delete (s : Store) (i : Nat) (h : WF s) : WF (apiDelete s i).2 := by
  cases hf : findById s i with
  | none => simpa [apiDelete, deleteUser, hf] using h
  | some u =>
    have hstate : (apiDelete s i).2 =
        ⟨s.users.filter (fun v => v.id != i), s.nextId⟩ := by
      simp [apiDelete, deleteUser, hf]
    rw [hstate]
    exact ⟨h.1.sublist (List.filter_sublist _),
      fun v hv => h.2 v (List.mem_of_mem_filter hv)⟩

/-- Every reachable store state is well-formed. -/
theorem reachable_wf {s : Store} (h : Reachable s) : WF s := by
  induction h with
  | empty => exact ⟨List.Pairwise.nil, by simp⟩
  | create s e p _ ih => exact wf_create s e p ih
  | update s i ne np _ ih => exact wf_update s i ne np ih
  | delete s i _ ih => exact wf_delete s i ih

/-- Concrete stores used to exhibit reachable states. -/
def store0 : Store := ⟨[], 0⟩

def storeA : Store := (apiCreate store0 "a@x.com" "p1").2

def storeAB : Store := (apiCreate storeA "b@x.com" "p2").2

/-- C2.  In every reachable store state no two live users share an email
(create and update preserve the invariant, being the only email-changing
operations of `Reachable`), and an update whose new email collides with
another user fails with the literal duplicate-email response. -/
theorem email_unique_invariant (s : Store) (h : Reachable s) :
    s.users.Pairwise (fun a b => a.email ≠ b.email) ∧
    (∀ i e np u, findById s i = some u → e ≠ u.email →
      emailCollides s i e = true →
      (apiUpdate s i (some e) np).1 =
        ⟨400, Body.detail "Email already registered"⟩) := by
  constructor
  · exact (reachable_wf h).1.imp (fun hd => hd.1)
  · intro i e np u hf hne hc
    have hbne : (e != u.email) = true := by simpa using hne
    simp [apiUpdate, updateUser, hf, hbne, hc, renderError]

/-- Witness for C2: a store holding `a@x.com` and `b@x.com` is reachable, so
the invariant and the collision rejection hold there. -/
theorem email_unique_invariant_witness :
    Reachable storeAB ∧
    (storeAB.users.Pairwise (fun a b => a.email ≠ b.email) ∧
     (∀ i e np u, findById storeAB i = some u → e ≠ u.email →
        emailCollides storeAB i e = true →
        (apiUpdate storeAB i (some e) np).1 =
          ⟨400, Body.detail "Email already registered"⟩)) :=
  ⟨Reachable.create storeA "b@x.com" "p2"
      (Reachable.create store0 "a@x.com" "p1" Reachable.empty),
   email_unique_invariant storeAB
     (Reachable.create storeA "b@x.com" "p2"
       (Reachable.create store0 "a@x.com" "p1" Reachable.empty))⟩

/-- C3.  For a registered user, login with the correct password returns 200
with the matching user (same id and email); login with a wrong password
returns 400 with the literal invalid-credentials body. -/
theorem login_correct_then_wrong (s : Store) (h : Reachable s)
    (u : User) (hu : u ∈ s.users) (p w : String)
    (hp : u.password_hash = hashPassword p)
    (hw : u.password_hash ≠ hashPassword w) :
    apiLogin s u.email p = ⟨200, Body.user ⟨u.id, u.email⟩⟩ ∧
    apiLogin s u.email w = ⟨400, Body.detail "Invalid credentials"⟩ := by
  have hwf := reachable_wf h
  have hfind : findByEmail s u.email = some u := by
    cases hf : findByEmail s u.email with
    | none =>
      exfalso
      have hnone : ∀ x ∈ s.users, ¬x.email = u.email := by
        simpa [findByEmail] using hf
      exact hnone u hu rfl
    | some v =>
      have hv_mem : v ∈ s.users := List.mem_of_find?_eq_some hf
      have hv_email : v.email = u.email := by
        have := List.find?_some hf
        simpa using this
      have hvu : v = u := by
        by_contra hne
        exact (hwf.1.forall distinct_symm hv_mem hu hne).1 hv_email
      exact congrArg some hvu
  constructor
  · simp [apiLogin, loginUser, hfind, verifyPassword, hp, toOut]
  · have hv : verifyPassword w u.password_hash = false := by
      simp only [verifyPassword, beq_eq_false_iff_ne, ne_eq]
      exact fun hc => hw hc.symm
    simp [apiLogin, loginUser, hfind, hv, renderError]

/-- Witness for C3: in the reachable store holding `a@x.com`, login with the
stored password succeeds and a wrong password is rejected. -/
theorem login_correct_then_wrong_witness :
    Reachable storeA ∧
    (⟨0, "a@x.com", hashPassword "p1"⟩ : User) ∈ storeA.users ∧
    (⟨0, "a@x.com", hashPassword "p1"⟩ : User).password_hash = hashPassword "p1" ∧
    (⟨0, "a@x.com", hashPassword "p1"⟩ : User).password_hash ≠ hashPassword "wrong" ∧
    (apiLogin storeA "a@x.com" "p1" = ⟨200, Body.user ⟨0, "a@x.com"⟩⟩ ∧
     apiLogin storeA "a@x.com" "wrong" = ⟨400, Body.detail "Invalid credentials"⟩) :=
  ⟨Reachable.create store0 "a@x.com" "p1" Reachable.empty, by decide, rfl, by decide,
   login_correct_then_wrong storeA
     (Reachable.create store0 "a@x.com" "p1" Reachable.empty)
     ⟨0, "a@x.com", hashPassword "p1"⟩ (by decide) "p1" "wrong" rfl (by decide)⟩

/-- C4.  A failed login against a registered email with a wrong password and
a failed login against an unregistered email produce identical responses
(status 400, literal invalid-credentials body): no user-enumeration leak. -/
theorem login_failures_indistinguishable (s : Store) (e1 p1 e2 p2 : String)
    (u : User) (h1 : findByEmail s e1 = some u)
    (h2 : u.password_hash ≠ hashPassword p1)
    (h3 : findByEmail s e2 = none) :
    apiLogin s e1 p1 = apiLogin s e2 p2 ∧
    apiLogin s e1 p1 = ⟨400, Body.detail "Invalid credentials"⟩ := by
  have hv : verifyPassword p1 u.password_hash = false := by
    simp only [verifyPassword, beq_eq_false_iff_ne, ne_eq]
    exact fun hc => h2 hc.symm
  constructor <;> simp [apiLogin, loginUser, h1, h3, hv, renderError]

/-- Witness for C4: in the store holding only `a@x.com`, a wrong-password
login and a login against the unregistered `b@x.com` coincide. -/
theorem login_failures_indistinguishable_witness :
    findByEmail storeA "a@x.com" = some ⟨0, "a@x.com", hashPassword "p1"⟩ ∧
    (⟨0, "a@x.com", hashPassword "p1"⟩ : User).password_hash ≠ hashPassword "oops" ∧
    findByEmail storeA "b@x.com" = none ∧
    (apiLogin storeA "a@x.com" "oops" = apiLogin storeA "b@x.com" "p2" ∧
     apiLogin storeA "a@x.com" "oops" = ⟨400, Body.detail "Invalid credentials"⟩) :=
  ⟨by decide, by decide, by decide,
   login_failures_indistinguishable storeA "a@x.com" "oops" "b@x.com" "p2"
     ⟨0, "a@x.com", hashPassword "p1"⟩ (by decide) (by decide) (by decide)⟩

/-- C5.  For a fresh email, create succeeds with 201, the returned id (the
generator value) differs from every existing user's id, and a get on that id
in the new store returns 200 with the same email. -/
theorem create_fresh_roundtrip (s : Store) (h : Reachable s) (e p : String)
    (hfresh : findByEmail s e = none) :
    (apiCreate s e p).1 = ⟨201, Body.user ⟨s.nextId, e⟩⟩ ∧
    (∀ u ∈ s.users, u.id ≠ s.nextId) ∧
    apiGet (apiCreate s e p).2 s.nextId = ⟨200, Body.user ⟨s.nextId, e⟩⟩ := by
  have hwf := reachable_wf h
  refine ⟨by simp [apiCreate, createUser_fresh hfresh, toOut],
    fun u hu => Nat.ne_of_lt (hwf.2 u hu), ?_⟩
  have hstate : (apiCreate s e p).2 =
      ⟨s.users ++ [⟨s.nextId, e, hashPassword p⟩], s.nextId + 1⟩ := by
    simp [apiCreate, createUser_fresh hfresh]
  rw [hstate]
  have hnone : s.users.find? (fun v => v.id == s.nextId) = none := by
    rw [List.find?_eq_none]
    intro x hx
    simpa using Nat.ne_of_lt (hwf.2 x hx)
  simp [apiGet, getUser, findById, List.find?_append, hnone, List.find?, toOut]

/-- Witness for C5: creating `b@x.com` in the reachable store `storeA`
returns id 1 and the round trip through get succeeds. -/
theorem create_fresh_roundtrip_witness :
    Reachable storeA ∧ findByEmail storeA "b@x.com" = none ∧
    ((apiCreate storeA "b@x.com" "q").1 = ⟨201, Body.user ⟨1, "b@x.com"⟩⟩ ∧
     (∀ u ∈ storeA.users, u.id ≠ 1) ∧
     apiGet (apiCreate storeA "b@x.com" "q").2 1 =
       ⟨200, Body.user ⟨1, "b@x.com"⟩⟩) :=
  ⟨Reachable.create store0 "a@x.com" "p1" Reachable.empty, by decide,
   create_fresh_roundtrip storeA
     (Reachable.create store0 "a@x.com" "p1" Reachable.empty)
     "b@x.com" "q" (by decide)⟩

/-- Multi-step reachability between store states through the state-changing
API operations. -/
inductive ReachFrom : Store → Store → Prop where
  | refl (s : Store) : ReachFrom s s
  | create (s t : Store) (e p : String) :
      ReachFrom s t → ReachFrom s (apiCreate t e p).2
  | update (s t : Store) (i : Nat) (ne np : Option String) :
      ReachFrom s t → ReachFrom s (apiUpdate t i ne np).2
  | delete (s t : Store) (i : Nat) : ReachFrom s t → ReachFrom s (apiDelete t i).2

/-- Absence of an id from a store, together with the generator being past it
(so the id can never be handed out again). -/
def Gone (i : Nat) (s : Store) : Prop :=
  (∀ v ∈ s.users, v.id ≠ i) ∧ i < s.nextId

theorem update_cond_id (i : Nat) (ne np : Option String) (v : User) :
    ((if v.id == i then applyUpdate v ne np else v) : User).id = v.id := by
  by_cases hv : v.id = i <;> simp [hv, applyUpdate_id]

theorem gone_create (j : Nat) (s : Store) (e p : String) (h : Gone j s) :
    Gone j (apiCreate s e p).2 := by
  cases hf : findByEmail s e with
  | some u => simpa [apiCreate, createUser_conflict hf] using h
  | none =>
    have hstate : (apiCreate s e p).2 =
        ⟨s.users ++ [⟨s.nextId, e, hashPassword p⟩], s.nextId + 1⟩ := by
      simp [apiCreate, createUser_fresh hf]
    rw [hstate]
    constructor
    · intro v hv
      rcases List.mem_append.mp hv with h1 | h2
      · exact h.1 v h1
      · have h3 : v = ⟨s.nextId, e, hashPassword p⟩ := by simpa using h2
        subst h3
        exact Nat.ne_of_gt h.2
    · exact Nat.lt_succ_of_lt h.2

theorem gone_update (j : Nat) (s : Store) (i : Nat) (ne np : Option String)
    (h : Gone j s) : Gone j (apiUpdate s i ne np).2 := by
  cases hf : findById s i with
  | none => simpa [apiUpdate, updateUser, hf] using h
  | some u =>
    cases hb : (match ne with
        | some e => e != u.email && emailCollides s i e
        | none => false) with
    | true => simpa [apiUpdate, updateUser, hf, hb] using h
    | false =>
      have hstate : (apiUpdate s i ne np).2 =
          ⟨s.users.map (fun v =>
              if v.id == i then applyUpdate v ne np else v), s.nextId⟩ := by
        simp [apiUpdate, updateUser, hf, hb]
      rw [hstate]
      constructor
      · intro w hw
        rcases List.mem_map.mp hw with ⟨v, hv, hvw⟩
        rw [← hvw, update_cond_id]
        exact h.1 v hv
      · exact h.2

theorem gone_delete (j : Nat) (s : Store) (i : Nat) (h : Gone j s) :
    Gone j (apiDelete s i).2 := by
  cases hf : findById s i with
  | none => simpa [apiDelete, deleteUser, hf] using h
  | some u =>
    have hstate : (apiDelete s i).2 =
        ⟨s.users.filter (fun v => v.id != i), s.nextId⟩ := by
      simp [apiDelete, deleteUser, hf]
    rw [hstate]
    exact ⟨fun v hv => h.1 v (List.mem_of_mem_filter hv), h.2⟩

/-- Once an id is gone it stays gone through any further operations. -/
theorem reachFrom_gone {j : Nat} {s t : Store} (h : Gone j s)
    (hr : ReachFrom s t) : Gone j t := by
  induction hr with
  | refl => exact h
  | create t e p _ ih => exact gone_create j t e p ih
  | update t i ne np _ ih => exact gone_update j t i ne np ih
  | delete t i _ ih => exact gone_delete j t i ih

/-- C6.  Deleting an existing user returns 200 with the literal success
message, and a get on that id in the resulting store — and in every store
reachable from it — returns 404 with the literal not-found body. -/
theorem delete_then_get_terminal (s : Store) (h : Reachable s) (i : Nat)
    (u : User) (hu : u ∈ s.users) (hid : u.id = i) :
    (apiDelete s i).1 = ⟨200, Body.message "User deleted successfully"⟩ ∧
    (∀ t, ReachFrom (apiDelete s i).2 t →
      apiGet t i = ⟨404, Body.detail "There is no user with this ID"⟩) := by
  have hwf := reachable_wf h
  have hfind : findById s i ≠ none := by
    intro hn
    have hnone : ∀ x ∈ s.users, ¬(x.id = i) := by
      simpa [findById] using hn
    exact hnone u hu hid
  obtain ⟨v, hv⟩ : ∃ v, findById s i = some v := by
    cases hf : findById s i with
    | none => exact absurd hf hfind
    | some v => exact ⟨v, rfl⟩
  have hgone : Gone i (apiDelete s i).2 := by
    have hstate : (apiDelete s i).2 =
        ⟨s.users.filter (fun w => w.id != i), s.nextId⟩ := by
      simp [apiDelete, deleteUser, hv]
    rw [hstate]
    constructor
    · intro w hw
      have := List.of_mem_filter hw
      simpa using this
    · rw [← hid]
      exact hwf.2 u hu
  refine ⟨by simp [apiDelete, deleteUser, hv], ?_⟩
  intro t ht
  have hg := reachFrom_gone hgone ht
  have hnone : t.users.find? (fun w => w.id == i) = none := by
    rw [List.find?_eq_none]
    intro x hx
    simpa using hg.1 x hx
  simp [apiGet, getUser, findById, hnone, renderError]

/-- Witness for C6: deleting user 0 from the reachable store `storeA`
succeeds with the literal message, and the immediate get is 404. -/
theorem delete_then_get_terminal_witness :
    Reachable storeA ∧
    (⟨0, "a@x.com", hashPassword "p1"⟩ : User) ∈ storeA.users ∧
    (⟨0, "a@x.com", hashPassword "p1"⟩ : User).id = 0 ∧
    ((apiDelete storeA 0).1 = ⟨200, Body.message "User deleted successfully"⟩ ∧
     (∀ t, ReachFrom (apiDelete storeA 0).2 t →
       apiGet t 0 = ⟨404, Body.detail "There is no user with this ID"⟩)) :=
  ⟨Reachable.create store0 "a@x.com" "p1" Reachable.empty, by decide, rfl,
   delete_then_get_terminal storeA
     (Reachable.create store0 "a@x.com" "p1" Reachable.empty) 0
     ⟨0, "a@x.com", hashPassword "p1"⟩ (by decide) rfl⟩

/-- C7.  A successful update on an existing user changes exactly the supplied
fields: the response carries the unchanged id and the supplied-or-old email,
the generator and every other user are untouched in both directions, and the
stored record for the id is exactly the old record with the supplied email
and re-hashed password applied and nothing else. -/
theorem update_exact_fields (s : Store) (h : Reachable s) (i : Nat)
    (ne np : Option String) (u : User) (hf : findById s i = some u)
    (h200 : (apiUpdate s i ne np).1.status = 200) :
    (apiUpdate s i ne np).1 = ⟨200, Body.user ⟨u.id, ne.getD u.email⟩⟩ ∧
    (apiUpdate s i ne np).2.nextId = s.nextId ∧
    (∀ v ∈ s.users, v.id ≠ i → v ∈ (apiUpdate s i ne np).2.users) ∧
    (∀ w ∈ (apiUpdate s i ne np).2.users, w.id ≠ i → w ∈ s.users) ∧
    applyUpdate u ne np ∈ (apiUpdate s i ne np).2.users ∧
    (∀ w ∈ (apiUpdate s i ne np).2.users, w.id = i → w = applyUpdate u ne np) ∧
    (applyUpdate u ne np).id = u.id ∧
    (applyUpdate u ne np).email = ne.getD u.email ∧
    (applyUpdate u ne np).password_hash =
      (np.map hashPassword).getD u.password_hash := by
  have hwf := reachable_wf h
  have hu_mem : u ∈ s.users := List.mem_of_find?_eq_some hf
  have hu_id : u.id = i := by
    have := List.find?_some hf
    simpa using this
  cases hb : (match ne with
      | some e => e != u.email && emailCollides s i e
      | none => false) with
  | true =>
    exfalso
    simp [apiUpdate, updateUser, hf, hb, renderError] at h200
  | false =>
    have hresp : (apiUpdate s i ne np).1 =
        ⟨200, Body.user (toOut (applyUpdate u ne np))⟩ := by
      simp [apiUpdate, updateUser, hf, hb]
    have hstate : (apiUpdate s i ne np).2 =
        ⟨s.users.map (fun v =>
            if v.id == i then applyUpdate v ne np else v), s.nextId⟩ := by
      simp [apiUpdate, updateUser, hf, hb]
    refine ⟨hresp, by rw [hstate], ?_, ?_, ?_, ?_, rfl, rfl, by cases np <;> rfl⟩
    · intro v hv hvi
      rw [hstate]
      refine List.mem_map.mpr ⟨v, hv, ?_⟩
      have hne2 : (v.id == i) = false := by simp [hvi]
      rw [hne2]
      simp
    · intro w hw hwi
      rw [hstate] at hw
      rcases List.mem_map.mp hw with ⟨v, hv, hvw⟩
      by_cases hvi : v.id = i
      · exfalso
        apply hwi
        rw [← hvw, update_cond_id, hvi]
      · have hne2 : (v.id == i) = false := by simp [hvi]
        rw [hne2] at hvw
        simp at hvw
        rw [← hvw]
        exact hv
    · rw [hstate]
      refine List.mem_map.mpr ⟨u, hu_mem, ?_⟩
      have ht : (u.id == i) = true := by simp [hu_id]
      rw [ht]
      simp
    · intro w hw hwi
      rw [hstate] at hw
      rcases List.mem_map.mp hw with ⟨v, hv, hvw⟩
      by_cases hvi : v.id = i
      · have hvu : v = u := eq_of_mem_of_id_eq hwf.1 hv hu_mem (by rw [hvi, hu_id])
        have ht : (v.id == i) = true := by simp [hvi]
        rw [ht] at hvw
        simp at hvw
        rw [← hvw, hvu]
      · exfalso
        have hne2 : (v.id == i) = false := by simp [hvi]
        rw [hne2] at hvw
        simp at hvw
        apply hvi
        rw [← hvw] at hwi
        exact hwi
/-- Witness for C7: updating user 0 of the reachable store `storeA` with a
new email and password succeeds and reports the unchanged id with the new
email. -/
theorem update_exact_fields_witness :
    Reachable storeA ∧
    findById storeA 0 = some ⟨0, "a@x.com", hashPassword "p1"⟩ ∧
    (apiUpdate storeA 0 (some "c@x.com") (some "pw2")).1.status = 200 ∧
    (apiUpdate storeA 0 (some "c@x.com") (some "pw2")).1 =
      ⟨200, Body.user ⟨0, "c@x.com"⟩⟩ :=
  ⟨Reachable.create store0 "a@x.com" "p1" Reachable.empty, by decide, by decide,
   (update_exact_fields storeA
     (Reachable.create store0 "a@x.com" "p1" Reachable.empty) 0
     (some "c@x.com") (some "pw2") ⟨0, "a@x.com", hashPassword "p1"⟩
     (by decide) (by decide)).1⟩

/-- C8.  Every output-facing user representation produced by list, get,
create, update or login is the `id`/`email` projection of a stored user
(the `UserOut` shape carries no password or hash), and list returns the
projection of all users. -/
theorem outputs_only_id_email (s : Store) :
    apiList s = ⟨200, Body.users (listUsers s)⟩ ∧
    listUsers s = s.users.map toOut ∧
    (∀ o ∈ listUsers s, ∃ v ∈ s.users, o = ⟨v.id, v.email⟩) ∧
    (∀ i o, apiGet s i = ⟨200, Body.user o⟩ →
      ∃ v ∈ s.users, o = ⟨v.id, v.email⟩) ∧
    (∀ e p o, (apiCreate s e p).1 = ⟨201, Body.user o⟩ →
      ∃ v ∈ (apiCreate s e p).2.users, o = ⟨v.id, v.email⟩) ∧
    (∀ i ne np o, (apiUpdate s i ne np).1 = ⟨200, Body.user o⟩ →
      ∃ v ∈ (apiUpdate s i ne np).2.users, o = ⟨v.id, v.email⟩) ∧
    (∀ e p o, apiLogin s e p = ⟨200, Body.user o⟩ →
      ∃ v ∈ s.users, o = ⟨v.id, v.email⟩) := by
  refine ⟨rfl, rfl, ?_, ?_, ?_, ?_, ?_⟩
  · intro o ho
    rcases List.mem_map.mp ho with ⟨v, hv, hvo⟩
    exact ⟨v, hv, hvo.symm⟩
  · intro i o ho
    cases hf : findById s i with
    | none => simp [apiGet, getUser, hf, renderError] at ho
    | some v =>
      have hvo : toOut v = o := by simpa [apiGet, getUser, hf] using ho
      exact ⟨v, List.mem_of_find?_eq_some hf, hvo.symm⟩
  · intro e p o ho
    cases hf : findByEmail s e with
    | some v => simp [apiCreate, createUser_conflict hf, renderError] at ho
    | none =>
      have hvo : (⟨s.nextId, e⟩ : UserOut) = o := by
        simpa [apiCreate, createUser_fresh hf] using ho
      have hstate : (apiCreate s e p).2 =
          ⟨s.users ++ [⟨s.nextId, e, hashPassword p⟩], s.nextId + 1⟩ := by
        simp [apiCreate, createUser_fresh hf]
      refine ⟨⟨s.nextId, e, hashPassword p⟩, ?_, hvo.symm⟩
      rw [hstate]
      simp
  · intro i ne np o ho
    cases hf : findById s i with
    | none => simp [apiUpdate, updateUser, hf, renderError] at ho
    | some u =>
      cases hb : (match ne with
          | some e => e != u.email && emailCollides s i e
          | none => false) with
      | true => simp [apiUpdate, updateUser, hf, hb, renderError] at ho
      | false =>
        have hvo : toOut (applyUpdate u ne np) = o := by
          simpa [apiUpdate, updateUser, hf, hb] using ho
        have hstate : (apiUpdate s i ne np).2 =
            ⟨s.users.map (fun v =>
                if v.id == i then applyUpdate v ne np else v), s.nextId⟩ := by
          simp [apiUpdate, updateUser, hf, hb]
        refine ⟨applyUpdate u ne np, ?_, hvo.symm⟩
        rw [hstate]
        refine List.mem_map.mpr ⟨u, List.mem_of_find?_eq_some hf, ?_⟩
        have hu_id : u.id = i := by
          have := List.find?_some hf
          simpa using this
        have ht : (u.id == i) = true := by simp [hu_id]
        rw [ht]
        simp
  · intro e p o ho
    cases hf : findByEmail s e with
    | none => simp [apiLogin, loginUser, hf, renderError] at ho
    | some v =>
      cases hp : verifyPassword p v.password_hash with
      | false => simp [apiLogin, loginUser, hf, hp, renderError] at ho
      | true =>
        have hvo : toOut v = o := by simpa [apiLogin, loginUser, hf, hp] using ho
        exact ⟨v, List.mem_of_find?_eq_some hf, hvo.symm⟩

/-- Witness for C8 at the concrete store `storeA`: list returns the
projection of all stored users. -/
theorem outputs_only_id_email_witness :
    apiList storeA = ⟨200, Body.users (listUsers storeA)⟩ ∧
    listUsers storeA = storeA.users.map toOut :=
  ⟨(outputs_only_id_email storeA).1, (outputs_only_id_email storeA).2.1⟩

end UserService

namespace AppConfig

/-- Environment: a partial map from variable names to string values, as seen
by `os.getenv` in `app/config.py`. -/
def Env : Type := String → Option String

/-- Python exceptions that the `int(...)` call in `app/config.py` can raise:
`TypeError` for `int(None)`, `ValueError` for a non-numeric string. -/
inductive PyError where
  | typeError
  | valueError
deriving DecidableEq

/-- Model of Python `str.strip()` on a character list: drop leading and
trailing whitespace. -/
def stripChars (l : List Char) : List Char :=
  ((l.dropWhile Char.isWhitespace).reverse.dropWhile Char.isWhitespace).reverse

/-- Model of Python `str.strip()`. -/
def pyStrip (s : String) : String := String.mk (stripChars s.data)

/-- Model of Python `str.split(',')` on a character list: split at every
comma, keeping empty pieces. -/
def splitCommaChars : List Char → List (List Char)
  | [] => [[]]
  | c :: rest =>
    let r := splitCommaChars rest
    if c == ',' then [] :: r
    else
      match r with
      | [] => [[c]]
      | h :: t => (c :: h) :: t

/-- Model of Python `str.split(',')`. -/
def pySplitComma (s : String) : List String :=
  (splitCommaChars s.data).map String.mk

def digitVal (c : Char) : Nat := c.toNat - '0'.toNat

def natOfDigits (l : List Char) : Nat :=
  l.foldl (fun acc c => acc * 10 + digitVal c) 0

/-- Model of Python `int(str)`: optional surrounding whitespace, an optional
sign, then one or more decimal digits; `none` models a raised `ValueError`. -/
def pyInt (s : String) : Option Int :=
  match stripChars s.data with
  | [] => none
  | c :: rest =>
    if c == '-' then
      if !rest.isEmpty && rest.all Char.isDigit then
        some (-(natOfDigits rest : Int))
      else none
    else if c == '+' then
      if !rest.isEmpty && rest.all Char.isDigit then
        some ((natOfDigits rest : Int))
      else none
    else
      if (c :: rest).all Char.isDigit then
        some ((natOfDigits (c :: rest) : Int))
      else none

/-- Embedded from `app/config.py`: the default value passed to `os.getenv`
for `ALLOWED_CORS_ORIGINS`. -/
def defaultCorsStr : String :=
  "http://localhost:5173,http://localhost:3000,http://127.0.0.1:5173,http://127.0.0.1:3000"

/-- Embedded from `app/config.py`: `ALLOWED_CORS_ORIGINS_STR`. -/
def ALLOWED_CORS_ORIGINS_STR (env : Env) : String :=
  (env "ALLOWED_CORS_ORIGINS").getD defaultCorsStr

/-- Embedded from `app/config.py`: the list comprehension
`[origin.strip() for origin in ALLOWED_CORS_ORIGINS_STR.split(',') if origin.strip()]`. -/
def ALLOWED_CORS_ORIGINS (env : Env) : List String :=
  ((pySplitComma (ALLOWED_CORS_ORIGINS_STR env)).filter
    (fun o => !(pyStrip o == ""))).map pyStrip

/-- Embedded from `app/config.py`:
`ACCESS_TOKEN_EXPIRE_MINUTES = int(os.getenv("ACCESS_TOKEN_EXPIRE_MINUTES"))`,
with no default value: `int(None)` raises `TypeError` and `int` of a
non-numeric string raises `ValueError`. -/
def ACCESS_TOKEN_EXPIRE_MINUTES (env : Env) : Except PyError Int :=
  match env "ACCESS_TOKEN_EXPIRE_MINUTES" with
  | none => Except.error PyError.typeError
  | some s =>
    match pyInt s with
    | none => Except.error PyError.valueError
    | some n => Except.ok n

/-- The module-level bindings of `app/config.py` in order; importing the
module succeeds only if every binding evaluates without raising. -/
structure Config where
  secretKey : Option String
  algorithm : Option String
  accessTokenExpireMinutes : Int
  allowedCorsOrigins : List String
deriving DecidableEq

/-- Embedded from `app/config.py`: evaluation of the whole module body. -/
def loadConfig (env : Env) : Except PyError Config :=
  match ACCESS_TOKEN_EXPIRE_MINUTES env with
  | Except.error e => Except.error e
  | Except.ok n =>
      Except.ok ⟨env "SECRET_KEY", env "ALGORITHM", n, ALLOWED_CORS_ORIGINS env⟩

/-- C9.  Importing the config module requires `ACCESS_TOKEN_EXPIRE_MINUTES`:
if the variable is unset the module load raises `TypeError` (`int(None)`),
if it is set to a non-integer string it raises `ValueError`, and — unlike
this setting — `ALLOWED_CORS_ORIGINS` falls back to its default when
unset. -/
theorem config_requires_expire_minutes (env : Env) :
    (env "ACCESS_TOKEN_EXPIRE_MINUTES" = none →
      loadConfig env = Except.error PyError.typeError) ∧
    (∀ s, env "ACCESS_TOKEN_EXPIRE_MINUTES" = some s → pyInt s = none →
      loadConfig env = Except.error PyError.valueError) ∧
    (env "ALLOWED_CORS_ORIGINS" = none →
      ALLOWED_CORS_ORIGINS_STR env = defaultCorsStr) := by
  refine ⟨?_, ?_, ?_⟩
  · intro h
    simp [loadConfig, ACCESS_TOKEN_EXPIRE_MINUTES, h]
  · intro s hs hint
    simp [loadConfig, ACCESS_TOKEN_EXPIRE_MINUTES, hs, hint]
  · intro h
    simp [ALLOWED_CORS_ORIGINS_STR, h]

/-- Witness for C9: with an empty environment the module load fails with
`TypeError`; with a non-numeric value it fails with `ValueError`; the CORS
string still falls back to its default. -/
theorem config_requires_expire_minutes_witness :
    loadConfig (fun _ => none) = Except.error PyError.typeError ∧
    loadConfig (fun k =>
      if k == "ACCESS_TOKEN_EXPIRE_MINUTES" then some "abc" else none) =
      Except.error PyError.valueError ∧
    ALLOWED_CORS_ORIGINS_STR (fun _ => none) = defaultCorsStr :=
  ⟨(config_requires_expire_minutes (fun _ => none)).1 rfl,
   (config_requires_expire_minutes (fun k =>
      if k == "ACCESS_TOKEN_EXPIRE_MINUTES" then some "abc" else none)).2.1
     "abc" (by decide) (by decide),
   (config_requires_expire_minutes (fun _ => none)).2.2 rfl⟩

theorem filter_map_comm {α β : Type} (f : α → β) (p : β → Bool) :
    ∀ l : List α, (l.filter (fun a => p (f a))).map f = (l.map f).filter p := by
  intro l
  induction l with
  | nil => rfl
  | cons a t ih => by_cases hp : p (f a) <;> simp [List.filter_cons, hp, ih]

/-- Reference definition following the spec's words for C10: split the
string on commas, strip surrounding whitespace from each entry, and drop
entries that are empty after stripping. -/
def corsOriginsSpec (raw : String) : List String :=
  ((pySplitComma raw).map pyStrip).filter (fun t => !(t == ""))

/-- C10.  For every environment, `ALLOWED_CORS_ORIGINS` equals the
split-strip-drop of the raw variable (defaulted when unset), and with the
variable unset it is exactly the four localhost/127.0.0.1 origins. -/
theorem allowed_cors_origins_spec (env : Env) :
    ALLOWED_CORS_ORIGINS env =
      corsOriginsSpec ((env "ALLOWED_CORS_ORIGINS").getD defaultCorsStr) ∧
    (env "ALLOWED_CORS_ORIGINS" = none →
      ALLOWED_CORS_ORIGINS env =
        ["http://localhost:5173", "http://localhost:3000",
         "http://127.0.0.1:5173", "http://127.0.0.1:3000"]) := by
  constructor
  · unfold ALLOWED_CORS_ORIGINS corsOriginsSpec ALLOWED_CORS_ORIGINS_STR
    exact filter_map_comm pyStrip (fun t => !(t == "")) _
  · intro h
    simp only [ALLOWED_CORS_ORIGINS, ALLOWED_CORS_ORIGINS_STR, h, Option.getD]
    decide

/-- Witness for C10: in the empty environment the computed origin list is
the four default origins and agrees with the spec-side definition. -/
theorem allowed_cors_origins_spec_witness :
    ALLOWED_CORS_ORIGINS (fun _ => none) =
      corsOriginsSpec (((fun _ => none : Env) "ALLOWED_CORS_ORIGINS").getD
        defaultCorsStr) ∧
    ALLOWED_CORS_ORIGINS (fun _ => none) =
      ["http://localhost:5173", "http://localhost:3000",
       "http://127.0.0.1:5173", "http://127.0.0.1:3000"] :=
  ⟨(allowed_cors_origins_spec (fun _ => none)).1,
   (allowed_cors_origins_spec (fun _ => none)).2 rfl⟩

end AppConfig
